import Mathlib

/-!
# Verification of the ClawHub skills plugin service layer

A shallow embedding of the core of the `plugin-cskills` repository:
the `ClawHubService` class (slug validation, the three TTL-governed
caches behind `getCatalog` / `search` / `getSkillDetails`, stale-on-error
fallback, `install`, `extractZip`, `loadSkill`, `syncCatalog`) and the
`GET_SKILL_GUIDANCE` action handler (its second definition) together with
its helpers `findBestLocalMatch` and the score thresholds.

Conventions of the embedding:
* timestamps and durations are `Int` milliseconds (JS numbers at the
  magnitudes used are exact integers); the JS value `Infinity`, which the
  code passes as `notOlderThan`, is the dedicated constructor `TTL.inf`;
* remote relevance scores are `ℚ` (the code compares and scales them;
  every comparison exercised here is exact);
* each `async` operation becomes a pure function from an explicit
  environment (the outcome the awaited network call would deliver) and
  the relevant service state to the produced value, the updated state,
  and an indication of which I/O the call performed;
* JS `Map`s become association lists, JS `x || y` on strings becomes
  `jsOrStr` (empty string is falsy), and `fetch` failure of any kind
  (non-2xx turned into `throw`, or transport error) is one `err` outcome,
  since the `catch` blocks in the source do not distinguish them.
-/

namespace CSkills

/-- Association-list lookup, modelling `Map.get`. -/
def lookupA {α : Type} (l : List (String × α)) (k : String) : Option α :=
  (l.find? (fun p => p.1 = k)).map (·.2)

/-- Association-list insert/overwrite, modelling `Map.set`. -/
def insertA {α : Type} (l : List (String × α)) (k : String) (v : α) :
    List (String × α) :=
  if (l.find? (fun p => p.1 = k)).isSome then
    l.map (fun p => if p.1 = k then (k, v) else p)
  else l ++ [(k, v)]

/-- JS `a || b` for strings: `a` unless it is absent or empty. -/
def jsOrStr (a : Option String) (b : String) : String :=
  match a with
  | none => b
  | some s => if s = "" then b else s

/-- JS-style split of a character list at every character satisfying `p`
(the result has one, possibly empty, piece per separator gap, like
`String.prototype.split`). -/
def splitOnPred (p : Char → Bool) : List Char → List (List Char)
  | [] => [[]]
  | c :: rest =>
    if p c then [] :: splitOnPred p rest
    else
      match splitOnPred p rest with
      | [] => [[c]]
      | h :: t => (c :: h) :: t

/-- JS `s.split(sep)` for a one-character separator. -/
def strSplitChar (sep : Char) (s : String) : List String :=
  (splitOnPred (fun c => c = sep) s.data).map String.mk

/-- JS `s.split` at a whitespace run, as the regex class matches it. -/
def strSplitWhitespace (s : String) : List String :=
  (splitOnPred Char.isWhitespace s.data).map String.mk

/-- JS `s.startsWith(pre)`. -/
def strStartsWith (s pre : String) : Bool := pre.data.isPrefixOf s.data

/-- JS `s.endsWith(suf)`. -/
def strEndsWith (s suf : String) : Bool := suf.data.isSuffixOf s.data

/-- JS `s.substring(n)`: drop the first `n` characters. -/
def strDrop (s : String) (n : Nat) : String := String.mk (s.data.drop n)

/-- JS `s.trim()`. -/
def strTrim (s : String) : String :=
  String.mk (((s.data.dropWhile Char.isWhitespace).reverse.dropWhile
    Char.isWhitespace).reverse)

/-- JS `s.toLowerCase()` (over the ASCII letters occurring here). -/
def strToLower (s : String) : String := String.mk (s.data.map Char.toLower)

/-- JS `parts.join(sep)`. -/
def strJoin (sep : String) : List String → String
  | [] => ""
  | a :: rest => rest.foldl (fun acc x => acc ++ sep ++ x) a

-- ============================================================
-- Data model (types from src/unnamed/part_001)
-- ============================================================

/-- Type `SkillSearchResult` from the service module. -/
structure SkillSearchResult where
  score : ℚ
  slug : String
  displayName : String
  summary : String
  version : String
  updatedAt : Int
deriving Repr, DecidableEq

/-- Type `SkillCatalogEntry` from the service module (`stats` flattened). -/
structure SkillCatalogEntry where
  slug : String
  displayName : String
  summary : Option String
  version : String
  tags : List (String × String)
  downloads : Int
  stars : Int
  updatedAt : Int
deriving Repr, DecidableEq

/-- Type `SkillDetails` from the service module, keeping the fields the
embedded operations read (`latestVersion.version` in particular);
the remaining nested display fields are flattened. -/
structure SkillDetails where
  slug : String
  displayName : String
  summary : String
  latestVersionVersion : String
  latestVersionCreatedAt : Int := 0
deriving Repr, DecidableEq

/-- Type `Skill` from the service module: one loaded (installed) skill. -/
structure Skill where
  slug : String
  name : String
  description : String
  version : String
  content : Option String := none
  scripts : List String := []
  references : List String := []
  cachedAt : Option Int := none
deriving Repr, DecidableEq

/-- Type `CacheEntry<T>` from the service module. -/
structure CacheEntry (α : Type) where
  data : α
  cachedAt : Int
deriving Repr, DecidableEq

/-- A `notOlderThan` value: a finite number of milliseconds or the JS
`Infinity` the cache-only callers pass. -/
inductive TTL where
  | fin (ms : Int)
  | inf
deriving Repr, DecidableEq

/-- Type `CacheOptions` from the service module. -/
structure CacheOptions where
  notOlderThan : Option TTL := none
  forceRefresh : Bool := false
deriving Repr, DecidableEq

/-- Comparison `age < ttl` as the JS `<` evaluates it (anything finite is `< Infinity`). -/
def ageLt (age : Int) : TTL → Bool
  | .fin n => age < n
  | .inf => true

/-- Constant `CACHE_TTL.CATALOG`: = 1 hour in ms. -/
def CACHE_TTL_CATALOG : Int := 1000 * 60 * 60

/-- Constant `CACHE_TTL.SKILL_DETAILS`: = 30 min in ms. -/
def CACHE_TTL_SKILL_DETAILS : Int := 1000 * 60 * 30

/-- Constant `CACHE_TTL.SEARCH`: = 5 min in ms. -/
def CACHE_TTL_SEARCH : Int := 1000 * 60 * 5

/-- Expression `options.notOlderThan ?? default`. -/
def ttlOf (o : CacheOptions) (dflt : Int) : TTL :=
  o.notOlderThan.getD (.fin dflt)

/-- Outcome an awaited remote fetch would deliver: the parsed payload on
success, or `err` for any non-2xx page or transport failure (the source
turns non-2xx into `throw`, so both reach the same `catch`). -/
inductive FetchOutcome (α : Type) where
  | ok (v : α)
  | err
deriving Repr, DecidableEq

-- ============================================================
-- sanitizeSlug
-- ============================================================

/-- A character the regex class `[a-zA-Z0-9_-]` accepts. -/
def isSlugChar (c : Char) : Bool :=
  (('a' ≤ c && c ≤ 'z') || ('A' ≤ c && c ≤ 'Z') ||
   ('0' ≤ c && c ≤ '9') || c = '_' || c = '-')

/-- Function `sanitizeSlug`: strips characters outside `[a-zA-Z0-9_-]`; throws
(`Except.error`) when anything was stripped or the result has length 0 or
more than 100. -/
def sanitizeSlug (slug : String) : Except Unit String :=
  let sanitized := String.mk (slug.data.filter isSlugChar)
  if sanitized ≠ slug ∨ sanitized.length = 0 ∨ sanitized.length > 100 then
    .error ()
  else
    .ok sanitized

/-- The spec's validity predicate: matches `^[A-Za-z0-9_-]{1,100}$`. -/
def validSlug (slug : String) : Bool :=
  slug.data.all isSlugChar && 1 ≤ slug.length && slug.length ≤ 100

-- ============================================================
-- getCatalog / getCatalogLowRes / getCatalogMedRes
-- ============================================================

/-- Method `getCatalog(options)`: check the singleton catalog cache under the
policy; on a miss run the paginated fetch (its aggregated outcome is
`env`); on success replace the cache wholesale; on failure log and return
the stale snapshot (or `[]`). Returns
`(result, new catalog cache, whether a network fetch was attempted)`. -/
def getCatalog (env : FetchOutcome (List SkillCatalogEntry)) (now : Int)
    (cache : Option (CacheEntry (List SkillCatalogEntry)))
    (opts : CacheOptions) :
    List SkillCatalogEntry × Option (CacheEntry (List SkillCatalogEntry)) × Bool :=
  let ttl := ttlOf opts CACHE_TTL_CATALOG
  let hit : Option (List SkillCatalogEntry) :=
    match opts.forceRefresh, cache with
    | false, some c => if ageLt (now - c.cachedAt) ttl then some c.data else none
    | _, _ => none
  match hit with
  | some d => (d, cache, false)
  | none =>
    match env with
    | .ok entries => (entries, some ⟨entries, now⟩, true)
    | .err => ((cache.map (·.data)).getD [], cache, true)

/-- Method `getCatalogLowRes`: `getCatalog` then project to `{slug, name}`. -/
def getCatalogLowRes (env : FetchOutcome (List SkillCatalogEntry)) (now : Int)
    (cache : Option (CacheEntry (List SkillCatalogEntry)))
    (opts : CacheOptions) :
    List (String × String) × Option (CacheEntry (List SkillCatalogEntry)) × Bool :=
  let r := getCatalog env now cache opts
  (r.1.map (fun s => (s.slug, s.displayName)), r.2.1, r.2.2)

/-- Method `getCatalogMedRes`: `getCatalog` then project to
`{slug, name, summary || 'No description'}`. -/
def getCatalogMedRes (env : FetchOutcome (List SkillCatalogEntry)) (now : Int)
    (cache : Option (CacheEntry (List SkillCatalogEntry)))
    (opts : CacheOptions) :
    List (String × String × String) ×
      Option (CacheEntry (List SkillCatalogEntry)) × Bool :=
  let r := getCatalog env now cache opts
  (r.1.map (fun s => (s.slug, s.displayName, jsOrStr s.summary "No description")),
    r.2.1, r.2.2)

-- ============================================================
-- search
-- ============================================================

/-- The search cache key `` `${query}:${limit}` ``. -/
def searchKey (query : String) (limit : Int) : String :=
  query ++ ":" ++ toString limit

/-- Method `search(query, limit, options)`: per-key cache check; on a miss one
fetch; on success cache and return the results; on any failure log and
return the stale entry for that key or `[]`. Returns
`(results, new search cache, whether a network fetch was attempted)`. -/
def search (env : FetchOutcome (List SkillSearchResult)) (now : Int)
    (cache : List (String × CacheEntry (List SkillSearchResult)))
    (query : String) (limit : Int) (opts : CacheOptions) :
    List SkillSearchResult ×
      List (String × CacheEntry (List SkillSearchResult)) × Bool :=
  let cacheKey := searchKey query limit
  let ttl := ttlOf opts CACHE_TTL_SEARCH
  let hit : Option (List SkillSearchResult) :=
    if opts.forceRefresh then none
    else
      match lookupA cache cacheKey with
      | some c => if ageLt (now - c.cachedAt) ttl then some c.data else none
      | none => none
  match hit with
  | some d => (d, cache, false)
  | none =>
    match env with
    | .ok results => (results, insertA cache cacheKey ⟨results, now⟩, true)
    | .err => (((lookupA cache cacheKey).map (·.data)).getD [], cache, true)

-- ============================================================
-- getSkillDetails
-- ============================================================

/-- Outcome of the details fetch: parsed details, an HTTP 404, or any
other failure. -/
inductive DetailsFetch where
  | ok (d : SkillDetails)
  | notFound
  | err
deriving Repr, DecidableEq

/-- The part of `getSkillDetails` after slug validation: cache check; on
a miss one fetch; 404 maps to `none` (uncached); other failures return
the stale entry or `none`. -/
def getSkillDetailsCore (env : DetailsFetch) (now : Int)
    (cache : List (String × CacheEntry SkillDetails)) (safeSlug : String)
    (opts : CacheOptions) :
    Option SkillDetails × List (String × CacheEntry SkillDetails) × Bool :=
  let ttl := ttlOf opts CACHE_TTL_SKILL_DETAILS
  let hit : Option SkillDetails :=
    if opts.forceRefresh then none
    else
      match lookupA cache safeSlug with
      | some c => if ageLt (now - c.cachedAt) ttl then some c.data else none
      | none => none
  match hit with
  | some d => (some d, cache, false)
  | none =>
    match env with
    | .ok details => (some details, insertA cache safeSlug ⟨details, now⟩, true)
    | .notFound => (none, cache, true)
    | .err => ((lookupA cache safeSlug).map (·.data), cache, true)

/-- Method `getSkillDetails(slug, options)`: validates the slug first (the
`sanitizeSlug` throw escapes to the caller, before any I/O), then runs
the cached fetch. -/
def getSkillDetails (env : DetailsFetch) (now : Int)
    (cache : List (String × CacheEntry SkillDetails)) (slug : String)
    (opts : CacheOptions) :
    Except Unit (Option SkillDetails) ×
      List (String × CacheEntry SkillDetails) × Bool :=
  match sanitizeSlug slug with
  | .error _ => (.error (), cache, false)
  | .ok safeSlug =>
    let r := getSkillDetailsCore env now cache safeSlug opts
    (.ok r.1, r.2.1, r.2.2)

-- ============================================================
-- extractZip
-- ============================================================

/-- The per-segment keep condition of `extractZip`'s sanitization:
`p => p && p !== '..' && p !== '.'` (an empty string is falsy). -/
def keepSegment (q : String) : Bool := q ≠ "" && q ≠ ".." && q ≠ "."

/-- The per-entry path sanitization in `extractZip`:
`fileName.split('/').filter(p => p && p !== '..' && p !== '.').join('/')`. -/
def sanitizeEntryName (fileName : String) : String :=
  strJoin "/" ((strSplitChar '/' fileName).filter keepSegment)

/-- Method `extractZip(zipBuffer, targetDir)`: for each archive entry that is
not a directory marker (name ending in `/`), drop empty, `.` and `..`
path segments; skip the entry if nothing remains; otherwise write the
entry's bytes at `path.join(targetDir, safeName)`. The function returns
the list of `(written path, bytes)` pairs, in order; it has no failure
outcome — the source never rejects an archive for its paths. -/
def extractZip (files : List (String × List Nat)) (targetDir : String) :
    List (String × List Nat) :=
  files.filterMap fun entry =>
    if strEndsWith entry.1 "/" then none
    else
      let safeName := sanitizeEntryName entry.1
      if safeName = "" then none
      else some (targetDir ++ "/" ++ safeName, entry.2)

-- ============================================================
-- Frontmatter parsing and instruction stripping
-- ============================================================

/-- Index of the first occurrence of `pat` in a character list, if any. -/
def findSubAux (pat : List Char) : List Char → Option Nat
  | [] => if pat.isEmpty then some 0 else none
  | c :: rest =>
    if pat.isPrefixOf (c :: rest) then some 0
    else (findSubAux pat rest).map (· + 1)

/-- The capture of the regex `^---\n([\s\S]*?)\n---` (anchored at the
start): the text between the opening `---` line and the first following
`---` line. -/
def frontmatterYaml (content : String) : Option String :=
  if strStartsWith content "---\n" then
    (findSubAux ("\n---".data) (strDrop content 4).data).map
      (fun i => String.mk ((strDrop content 4).data.take i))
  else none

/-- First line-anchored match of `/^key:\s*(.+)$/m`, trimmed — the way
`parseFrontmatter` reads `name:` and `description:` lines. A line that is
exactly `key:` with nothing after the colon does not match (`.+` needs at
least one character). -/
def frontmatterField (key : String) (yaml : String) : Option String :=
  (strSplitChar '\n' yaml).findSome? fun line =>
    if strStartsWith line (key ++ ":") ∧ line.length > key.length + 1 then
      some (strTrim (strDrop line (key.length + 1)))
    else none

/-- Method `parseFrontmatter(content)`: `{name?, description?}`. -/
def parseFrontmatter (content : String) : Option String × Option String :=
  match frontmatterYaml content with
  | none => (none, none)
  | some yaml => (frontmatterField "name" yaml, frontmatterField "description" yaml)

/-- The `replace(/^---[\s\S]*?---\n*/, '')` step of
`getSkillInstructions`: remove a leading `---`, the shortest run of
characters up to a closing `---`, and any newlines after it; leave the
content unchanged when the pattern does not match. -/
def stripFrontmatterBlock (content : String) : String :=
  if strStartsWith content "---" then
    match findSubAux ("---".data) (strDrop content 3).data with
    | some i =>
      String.mk (((strDrop (strDrop content 3) (i + 3)).data).dropWhile (· = '\n'))
    | none => content
  else content

-- ============================================================
-- Local skill store state and loadSkill
-- ============================================================

/-- On-disk content of one per-slug skill directory: the text of
`SKILL.md` when that file exists, and the entry listings of the
`scripts/` and `references/` subdirectories when they exist. -/
structure SkillDirState where
  skillMd : Option String := none
  scripts : Option (List String) := none
  references : Option (List String) := none
deriving Repr, DecidableEq

/-- The skills root on disk: per-slug directories. -/
abbrev Disk : Type := List (String × SkillDirState)

/-- The lock record `lock.json` as slug ↦ version (a missing or corrupt
file behaves as the empty record; `installedAt` is never read back). -/
abbrev Lock : Type := List (String × String)

/-- Method `getLockfileVersion(slug)`: `lockfile[slug]?.version || null`
(an empty-string version is falsy in JS and also yields null). -/
def getLockfileVersion (lock : Lock) (slug : String) : Option String :=
  match lookupA lock slug with
  | none => none
  | some v => if v = "" then none else some v

/-- The in-memory `loadedSkills` map. -/
abbrev LoadedMap : Type := List (String × Skill)

/-- Method `loadSkill(slug)`: validate the slug (the throw escapes, before any
filesystem access); return `null` when the directory has no `SKILL.md`;
otherwise parse the frontmatter, list non-hidden `scripts/` and
`references/` entries, read the lock version, build the `Skill` with
`cachedAt = Date.now()`, store it in `loadedSkills` and return it.
Returns the produced value and the updated map. -/
def loadSkill (disk : Disk) (lock : Lock) (now : Int) (loaded : LoadedMap)
    (slug : String) : Except Unit (Option Skill × LoadedMap) :=
  match sanitizeSlug slug with
  | .error _ => .error ()
  | .ok safeSlug =>
    match lookupA disk safeSlug with
    | none => .ok (none, loaded)
    | some dir =>
      match dir.skillMd with
      | none => .ok (none, loaded)
      | some content =>
        let fm := parseFrontmatter content
        let scripts :=
          (dir.scripts.getD []).filter (fun f => !strStartsWith f ".")
        let references :=
          (dir.references.getD []).filter (fun f => !strStartsWith f ".")
        let lockVersion := getLockfileVersion lock safeSlug
        let skill : Skill :=
          { slug := safeSlug
            name := jsOrStr fm.1 safeSlug
            description := jsOrStr fm.2 ""
            version := jsOrStr lockVersion "local"
            content := some content
            scripts := scripts
            references := references
            cachedAt := some now }
        .ok (some skill, insertA loaded safeSlug skill)

/-- Method `getLoadedSkill(slug)`: map lookup; an invalid slug is caught and
yields `undefined`. -/
def getLoadedSkill (loaded : LoadedMap) (slug : String) : Option Skill :=
  match sanitizeSlug slug with
  | .error _ => none
  | .ok safeSlug => lookupA loaded safeSlug

/-- Method `isInstalled(slug)`: map membership; an invalid slug is caught and
yields `false`. -/
def isInstalled (loaded : LoadedMap) (slug : String) : Bool :=
  match sanitizeSlug slug with
  | .error _ => false
  | .ok safeSlug => (lookupA loaded safeSlug).isSome

/-- Method `getSkillInstructions(slug)`: the loaded skill's content with the
frontmatter block stripped and trimmed; `null` when the skill is not
loaded, has no content (empty string is falsy), or the slug is invalid
(caught). -/
def getSkillInstructions (loaded : LoadedMap) (slug : String) : Option String :=
  match sanitizeSlug slug with
  | .error _ => none
  | .ok safeSlug =>
    match lookupA loaded safeSlug with
    | none => none
    | some skill =>
      match skill.content with
      | none => none
      | some c => if c = "" then none else some (strTrim (stripFrontmatterBlock c))

-- ============================================================
-- install and syncCatalog
-- ============================================================

/-- One observable network or filesystem I/O step of `install`. -/
inductive IOAction where
  | netDetails (slug : String)
  | netDownload (slug version : String)
  | fsWrite (p : String)
  | fsLockWrite (slug version : String)
  | fsReload (slug : String)
deriving Repr, DecidableEq

/-- The service state touched by `install`. -/
structure ServiceState where
  loadedSkills : LoadedMap := []
  detailsCache : List (String × CacheEntry SkillDetails) := []
  lock : Lock := []
deriving Repr, DecidableEq

/-- Environment for one `install` run: the outcome of the details fetch
(used only when the details cache misses), the download's byte length and
the archive's entries on a 2xx response, and the on-disk state the final
`loadSkill` reads (i.e. after extraction). -/
structure InstallEnv where
  details : DetailsFetch
  download : FetchOutcome (Nat × List (String × List Nat))
  diskAfter : Disk
deriving Repr, DecidableEq

/-- Method `install(slug, version)`: validate the slug (the throw is caught by
`install`'s own catch → `false`, before any I/O); fetch details (null →
`false`); resolve `"latest"`; download (failure or a buffer over
10 MiB → `false`); extract into `skillsDir/safeSlug`; write the lock
record; reload the skill; `true`. Every failure is caught and surfaced
only as `false`. Returns `(success, state, I/O actions performed)`. -/
def install (env : InstallEnv) (now : Int) (st : ServiceState)
    (skillsDir : String) (slug : String) (version : String) :
    Bool × ServiceState × List IOAction :=
  match sanitizeSlug slug with
  | .error _ => (false, st, [])
  | .ok safeSlug =>
    let d := getSkillDetailsCore env.details now st.detailsCache safeSlug {}
    let st1 : ServiceState := { st with detailsCache := d.2.1 }
    let tr1 : List IOAction := if d.2.2 then [.netDetails safeSlug] else []
    match d.1 with
    | none => (false, st1, tr1)
    | some details =>
      let resolvedVersion :=
        if version = "latest" then details.latestVersionVersion else version
      let tr2 := tr1 ++ [.netDownload safeSlug resolvedVersion]
      match env.download with
      | .err => (false, st1, tr2)
      | .ok (byteLength, entries) =>
        if byteLength > 10 * 1024 * 1024 then (false, st1, tr2)
        else
          let skillDir := skillsDir ++ "/" ++ safeSlug
          let writes := extractZip entries skillDir
          let tr3 := tr2 ++ writes.map (fun w => IOAction.fsWrite w.1)
          let lock' := insertA st1.lock safeSlug resolvedVersion
          let tr4 := tr3 ++ [.fsLockWrite safeSlug resolvedVersion]
          match loadSkill env.diskAfter lock' now st1.loadedSkills safeSlug with
          | .error _ => (false, { st1 with lock := lock' }, tr4 ++ [.fsReload safeSlug])
          | .ok (_, loaded') =>
            (true, { st1 with lock := lock', loadedSkills := loaded' },
              tr4 ++ [.fsReload safeSlug])

/-- Method `syncCatalog()`: count before, force-refresh the catalog via
`getCatalog`, count after, report `added = max(0, new - old)` and
`updated = new`. -/
def syncCatalog (env : FetchOutcome (List SkillCatalogEntry)) (now : Int)
    (cache : Option (CacheEntry (List SkillCatalogEntry))) :
    (Int × Int) × Option (CacheEntry (List SkillCatalogEntry)) :=
  let oldCount : Int := (cache.map (fun c => (c.data.length : Int))).getD 0
  let r := getCatalog env now cache { forceRefresh := true }
  let cache' := r.2.1
  let newCount : Int := (cache'.map (fun c => (c.data.length : Int))).getD 0
  ((max 0 (newCount - oldCount), newCount), cache')

-- ============================================================
-- GET_SKILL_GUIDANCE handler (second definition) and helpers
-- ============================================================

/-- Substring containment, i.e. JS `hay.includes(needle)`. -/
def strIncludes (hay needle : String) : Bool :=
  hay.data.tails.any (fun t => needle.data.isPrefixOf t)

/-- The generic description words `findBestLocalMatch` ignores. -/
def genericWords : List String :=
  ["skill", "agent", "search", "install", "use", "when", "with", "from", "your"]

/-- The score `findBestLocalMatch` (second definition) assigns one
installed skill against the query: +10 when the query contains the slug
or some query word (length > 3) occurs in the slug, +8 likewise for the
display name, +1 per description word of length > 5 that is not generic
and is one of the query's words. -/
def localMatchScore (queryLower : String) (queryWords : List String)
    (skill : Skill) : ℚ :=
  let slugLower := strToLower skill.slug
  let nameLower := strToLower skill.name
  let slugPts : ℚ :=
    if strIncludes queryLower slugLower ∨
        queryWords.any (fun w => strIncludes slugLower w && w.length > 3) then
      10 else 0
  let namePts : ℚ :=
    if strIncludes queryLower nameLower ∨
        queryWords.any (fun w => strIncludes nameLower w && w.length > 3) then
      8 else 0
  let descWords := strSplitWhitespace (strToLower skill.description)
  let descPts : ℚ :=
    ((descWords.filter (fun word =>
        word.length > 5 && !genericWords.contains word &&
        queryWords.contains word)).length : ℚ)
  slugPts + namePts + descPts

/-- Helper `findBestLocalMatch(skills, query)` (second definition): the first
skill attaining the strictly highest positive score, with its score. -/
def findBestLocalMatch (skills : List Skill) (query : String) :
    Option (Skill × ℚ) :=
  let queryLower := strToLower query
  let queryWords :=
    (strSplitWhitespace queryLower).filter (fun w => w.length > 2)
  skills.foldl
    (fun best skill =>
      let score := localMatchScore queryLower queryWords skill
      let keep : Bool := decide (score > 0) &&
        (match best with
          | none => true
          | some b => decide (score > b.2))
      if keep then some (skill, score) else best)
    none

/-- Which source answered a guidance query, as reported in the result's
`source` metadata: `'local'` or `'installed'`. -/
inductive Source where
  | localS
  | installedS
deriving Repr, DecidableEq

/-- Observable outcome of one run of the guidance handler: the "no
match" reply (`found: false`), a skill reply carrying slug, name,
description, the raw `data.instructions`, and the `source` metadata, or
the "found but couldn't install" reply (`found: true, installed:
false`). -/
inductive GOutcome where
  | noMatch (query : String)
  | withSkill (slug name description : String) (instructions : Option String)
      (source : Source)
  | installFailed (displayName : String)
deriving Repr, DecidableEq

/-- The `GET_SKILL_GUIDANCE` handler (second definition), from the point
where the awaited `service.search(searchTerms, 5)` has delivered `rs`:
compute the local match over the loaded skills, apply the confidence
floor (`bestRemote.score < 0.25` with no strong local match → no match),
prefer the strong local match when its score is at least the remote
score scaled by 100, otherwise auto-install the remote candidate when it
is not already loaded, falling back to the local match (or the
"found but couldn't install" reply) when `install` returns false.
`loadedAfter` is the `loadedSkills` map as `install` leaves it. Returns
the outcome and the list of slugs passed to `service.install`. -/
def handlerAfterSearch (searchTerms : String) (loaded : LoadedMap)
    (rs : List SkillSearchResult) (installOk : Bool)
    (loadedAfter : LoadedMap) : GOutcome × List String :=
  let installedSkills := loaded.map (·.2)
  let localMatch := findBestLocalMatch installedSkills searchTerms
  let bestRemote := rs.head?
  let remoteScore : ℚ := match bestRemote with
    | some b => b.score * 100
    | none => 0
  let localIsStrong : Bool := match localMatch with
    | some m => m.2 ≥ 8
    | none => false
  match bestRemote with
  | none => (.noMatch searchTerms, [])
  | some b =>
    if b.score < 1/4 ∧ localIsStrong = false then
      (.noMatch searchTerms, [])
    else
      let useLocal : Bool := localIsStrong &&
        (match localMatch with
          | some m => m.2 ≥ remoteScore
          | none => false)
      match useLocal, localMatch with
      | true, some m =>
        (.withSkill m.1.slug m.1.name m.1.description
          (getSkillInstructions loaded m.1.slug) .localS, [])
      | _, _ =>
        match getLoadedSkill loaded b.slug with
        | some _ =>
          -- already installed: no install call, map unchanged
          let skill := getLoadedSkill loaded b.slug
          (match skill with
            | some sk =>
              .withSkill sk.slug sk.name sk.description
                (getSkillInstructions loaded sk.slug) .localS
            | none =>
              .withSkill b.slug b.displayName b.summary none .localS,
            [])
        | none =>
          if installOk then
            let skill := getLoadedSkill loadedAfter b.slug
            (match skill with
              | some sk =>
                .withSkill sk.slug sk.name sk.description
                  (getSkillInstructions loadedAfter sk.slug) .installedS
              | none =>
                .withSkill b.slug b.displayName b.summary none .installedS,
              [b.slug])
          else
            match localMatch with
            | some m =>
              (.withSkill m.1.slug m.1.name m.1.description
                (getSkillInstructions loaded m.1.slug) .localS, [b.slug])
            | none => (.installFailed b.displayName, [b.slug])

/-- The `source` metadata of a handler outcome, when one was produced. -/
def outcomeSource : GOutcome → Option Source
  | .withSkill _ _ _ _ s => some s
  | _ => none

/-- The `data.instructions` payload of a handler outcome. -/
def outcomeInstructions : GOutcome → Option String
  | .withSkill _ _ _ i _ => i
  | _ => none

-- ============================================================
-- Theorems
-- ============================================================

-- ============================================================
-- Helper lemmas
-- ============================================================

theorem sanitizeSlug_eq (slug : String) :
    sanitizeSlug slug = if validSlug slug then .ok slug else .error () := by
  obtain ⟨l⟩ := slug
  by_cases hall : l.all isSlugChar = true
  · have hf : l.filter isSlugChar = l :=
      List.filter_eq_self.mpr (by simpa [List.all_eq_true] using hall)
    simp only [sanitizeSlug, validSlug, String.data, hf, String.length_mk, hall,
      Bool.true_and]
    by_cases h1 : 1 ≤ l.length
    · by_cases h2 : l.length ≤ 100
      · rw [if_neg, if_pos]
        · simp [h1, h2]
        · push_neg
          exact ⟨rfl, by omega, by omega⟩
      · rw [if_pos, if_neg]
        · simp [h2]
        · omega
    · rw [if_pos, if_neg]
      · simp [h1]
      · omega
  · have hne : String.mk (l.filter isSlugChar) ≠ String.mk l := by
      intro h
      apply hall
      have hfl : l.filter isSlugChar = l := by
        have := congrArg String.data h
        simpa using this
      simp only [List.all_eq_true]
      intro a ha
      exact (List.mem_filter.mp (hfl ▸ ha)).2
    simp only [sanitizeSlug, validSlug, String.data, hall, Bool.false_and,
      if_false]
    rw [if_pos (Or.inl hne)]
    simp

theorem sanitizeSlug_error_of_invalid (slug : String)
    (h : validSlug slug = false) : sanitizeSlug slug = .error () := by
  rw [sanitizeSlug_eq, h]
  simp

theorem sanitizeSlug_ok_of_valid (slug : String) (h : validSlug slug = true) :
    sanitizeSlug slug = .ok slug := by
  rw [sanitizeSlug_eq, h]
  simp

theorem getLoadedSkill_nil (slug : String) : getLoadedSkill [] slug = none := by
  unfold getLoadedSkill
  rcases sanitizeSlug slug with u | safeSlug <;> simp [lookupA]

-- ============================================================
-- C1: archive path safety
-- ============================================================

/-- C1 (counterexample): an archive whose only entry is named
`../../evil` is NOT rejected by `extractZip`: the parent-directory
segments are silently dropped and the entry IS materialized, at
`skills/demo/evil` inside the target directory; extraction (and hence the
install) proceeds rather than failing. -/
theorem extractZip_dotdot_entry_is_materialized :
    extractZip [("../../evil", [1, 2, 3])] "skills/demo" =
      [("skills/demo/evil", [1, 2, 3])] := by
  decide

/-- C1 (amended): `extractZip` sanitizes instead of rejecting — every
file it writes lands at `targetDir ++ "/" ++ s` where `s` is a nonempty
`/`-join of segments none of which is empty, `.` or `..`; so although an
offending archive is not rejected, no file is ever written outside the
per-slug target directory. -/
theorem extractZip_writes_stay_within_target
    (files : List (String × List Nat)) (targetDir p : String) (d : List Nat)
    (hmem : (p, d) ∈ extractZip files targetDir) :
    ∃ segs : List String, segs ≠ [] ∧
      (∀ s ∈ segs, s ≠ "" ∧ s ≠ ".." ∧ s ≠ ".") ∧
      p = targetDir ++ "/" ++ strJoin "/" segs := by
  unfold extractZip at hmem
  obtain ⟨entry, _, hf⟩ := List.mem_filterMap.mp hmem
  by_cases hdir : strEndsWith entry.1 "/"
  · simp [hdir] at hf
  · simp only [hdir, if_false, Bool.false_eq_true] at hf
    by_cases hempty : sanitizeEntryName entry.1 = ""
    · simp [hempty] at hf
    · simp only [hempty, if_false] at hf
      have hf2 := Option.some.inj hf
      have hp : p = targetDir ++ "/" ++ sanitizeEntryName entry.1 :=
        (congrArg Prod.fst hf2).symm
      refine ⟨(strSplitChar '/' entry.1).filter keepSegment, ?_, ?_, ?_⟩
      · intro hnil
        exact hempty (by simp [sanitizeEntryName, hnil, strJoin])
      · intro s hs
        have h2 := (List.mem_filter.mp hs).2
        simp only [keepSegment, Bool.and_eq_true, decide_eq_true_eq, ne_eq,
          decide_not, Bool.not_eq_true', decide_eq_false_iff_not] at h2
        exact ⟨h2.1.1, h2.1.2, h2.2⟩
      · rw [hp]
        rfl

/-- C1 (witness): the containment theorem applied to the `../../evil`
archive: its one write is inside `skills/demo`. -/
theorem extractZip_writes_stay_within_target_witness :
    ("skills/demo/evil", [1, 2, 3]) ∈
        extractZip [("../../evil", [1, 2, 3])] "skills/demo" ∧
      ∃ segs : List String, segs ≠ [] ∧
        (∀ s ∈ segs, s ≠ "" ∧ s ≠ ".." ∧ s ≠ ".") ∧
        "skills/demo/evil" = "skills/demo" ++ "/" ++ strJoin "/" segs :=
  ⟨by decide,
    extractZip_writes_stay_within_target
      [("../../evil", [1, 2, 3])] "skills/demo" "skills/demo/evil" [1, 2, 3]
      (by decide)⟩

-- ============================================================
-- C2: notOlderThan = Infinity on an empty cache
-- ============================================================

/-- C2 (code divergence): calling `getCatalog` (and its low/med-res
views) with `notOlderThan = Infinity` on an EMPTY catalog cache falls
through the `!options.forceRefresh && this.catalogCache` guard and DOES
attempt the paginated network fetch — contrary to the documented
"use cache only, no network call" intent at the call site; only a
non-empty cache is served without a fetch (any age passes `< Infinity`). -/
theorem getCatalog_infinity_empty_cache_still_fetches
    (env : FetchOutcome (List SkillCatalogEntry)) (now : Int)
    (e : CacheEntry (List SkillCatalogEntry)) :
    (getCatalog env now none { notOlderThan := some .inf }).2.2 = true ∧
    (getCatalogLowRes env now none { notOlderThan := some .inf }).2.2 = true ∧
    (getCatalogMedRes env now none { notOlderThan := some .inf }).2.2 = true ∧
    getCatalog env now (some e) { notOlderThan := some .inf } =
      (e.data, some e, false) := by
  cases env <;>
    simp [getCatalog, getCatalogLowRes, getCatalogMedRes, ttlOf, ageLt]

-- ============================================================
-- C3: TTL policy for the three cached reads
-- ============================================================

/-- C3: for each cached entity (catalog, per-(query,limit) search,
per-slug details) holding an entry, the entry is served with no network
fetch iff `forceRefresh` is unset and `now - cachedAt <
(notOlderThan ?? defaultTTL)` with strict `<`; otherwise a fetch is
attempted. Includes the boundary reads at `cachedAt + TTL - 1` (cache
hit) and `cachedAt + TTL + 1` (refetch) and the `forceRefresh` bypass
immediately after a write (`cachedAt = now`). -/
theorem cache_ttl_policy
    (envC : FetchOutcome (List SkillCatalogEntry))
    (envS : FetchOutcome (List SkillSearchResult)) (envD : DetailsFetch)
    (now : Int)
    (eC : CacheEntry (List SkillCatalogEntry))
    (eS : CacheEntry (List SkillSearchResult)) (eD : CacheEntry SkillDetails)
    (cacheS : List (String × CacheEntry (List SkillSearchResult)))
    (cacheD : List (String × CacheEntry SkillDetails))
    (q : String) (lim : Int) (slug : String) (opts : CacheOptions)
    (d : List SkillCatalogEntry) (t0 : Int)
    (hS : lookupA cacheS (searchKey q lim) = some eS)
    (hslug : validSlug slug = true)
    (hD : lookupA cacheD slug = some eD) :
    ((getCatalog envC now (some eC) opts).2.2 = false ↔
      opts.forceRefresh = false ∧
        ageLt (now - eC.cachedAt) (ttlOf opts CACHE_TTL_CATALOG) = true) ∧
    (opts.forceRefresh = false →
      ageLt (now - eC.cachedAt) (ttlOf opts CACHE_TTL_CATALOG) = true →
      getCatalog envC now (some eC) opts = (eC.data, some eC, false)) ∧
    ((search envS now cacheS q lim opts).2.2 = false ↔
      opts.forceRefresh = false ∧
        ageLt (now - eS.cachedAt) (ttlOf opts CACHE_TTL_SEARCH) = true) ∧
    (opts.forceRefresh = false →
      ageLt (now - eS.cachedAt) (ttlOf opts CACHE_TTL_SEARCH) = true →
      search envS now cacheS q lim opts = (eS.data, cacheS, false)) ∧
    (((getSkillDetails envD now cacheD slug opts).2.2 = false ∧
        (getSkillDetails envD now cacheD slug opts).1 = .ok (some eD.data)) ↔
      opts.forceRefresh = false ∧
        ageLt (now - eD.cachedAt) (ttlOf opts CACHE_TTL_SKILL_DETAILS) = true) ∧
    (getCatalog envC (t0 + CACHE_TTL_CATALOG - 1)
      (some ⟨d, t0⟩) {}).2.2 = false ∧
    (getCatalog envC (t0 + CACHE_TTL_CATALOG + 1)
      (some ⟨d, t0⟩) {}).2.2 = true ∧
    (getCatalog envC t0 (some ⟨d, t0⟩) { forceRefresh := true }).2.2 = true := by
  have hsafe := sanitizeSlug_ok_of_valid slug hslug
  refine ⟨?_, ?_, ?_, ?_, ?_, ?_, ?_, ?_⟩
  · cases hfr : opts.forceRefresh <;>
      cases hage : ageLt (now - eC.cachedAt) (ttlOf opts CACHE_TTL_CATALOG) <;>
      cases envC <;> simp [getCatalog, hfr, hage]
  · intro hfr hage
    simp [getCatalog, hfr, hage]
  · cases hfr : opts.forceRefresh <;>
      cases hage : ageLt (now - eS.cachedAt) (ttlOf opts CACHE_TTL_SEARCH) <;>
      cases envS <;> simp [search, hfr, hage, hS]
  · intro hfr hage
    simp [search, hfr, hage, hS]
  · cases hfr : opts.forceRefresh <;>
      cases hage : ageLt (now - eD.cachedAt)
        (ttlOf opts CACHE_TTL_SKILL_DETAILS) <;>
      cases envD <;>
      simp [getSkillDetails, getSkillDetailsCore, hsafe, hfr, hage, hD]
  · have : ageLt (t0 + CACHE_TTL_CATALOG - 1 - t0)
        (ttlOf {} CACHE_TTL_CATALOG) = true := by
      simp [ageLt, ttlOf, CACHE_TTL_CATALOG]
      omega
    simp [getCatalog, this]
  · have : ageLt (t0 + CACHE_TTL_CATALOG + 1 - t0)
        (ttlOf {} CACHE_TTL_CATALOG) = false := by
      simp [ageLt, ttlOf, CACHE_TTL_CATALOG]
      omega
    cases envC <;> simp [getCatalog, this]
  · cases envC <;> simp [getCatalog]

/-- C3 (witness): the policy theorem instantiated at concrete caches:
a fresh search entry is served without a fetch. -/
theorem cache_ttl_policy_witness :
    lookupA [(searchKey "q" 10,
        (⟨[], 0⟩ : CacheEntry (List SkillSearchResult)))]
      (searchKey "q" 10) = some ⟨[], 0⟩ ∧
    validSlug "foo" = true ∧
    lookupA [("foo", (⟨⟨"foo", "Foo", "", "1.0.0", 0⟩, 0⟩ :
        CacheEntry SkillDetails))] "foo" =
      some ⟨⟨"foo", "Foo", "", "1.0.0", 0⟩, 0⟩ ∧
    search .err 1 [(searchKey "q" 10, ⟨[], 0⟩)] "q" 10 {} =
      ([], [(searchKey "q" 10, ⟨[], 0⟩)], false) := by
  refine ⟨by decide, by decide, by decide, ?_⟩
  exact (cache_ttl_policy .err .err .err 1 ⟨[], 0⟩ ⟨[], 0⟩
    ⟨⟨"foo", "Foo", "", "1.0.0", 0⟩, 0⟩ [(searchKey "q" 10, ⟨[], 0⟩)]
    [("foo", ⟨⟨"foo", "Foo", "", "1.0.0", 0⟩, 0⟩)] "q" 10 "foo" {} [] 0
    (by decide) (by decide) (by decide)).2.2.2.1 rfl (by decide)

-- ============================================================
-- C5: getCatalog stale fallback on fetch failure
-- ============================================================

/-- C5: when the (paginated) catalog fetch fails — for any options,
`forceRefresh = true` included — `getCatalog` returns the previously
cached snapshot (`[]` when none exists) and leaves the cache, data and
`cachedAt` alike, untouched; no exception reaches the caller (the
embedded function is total). -/
theorem getCatalog_err_serves_stale
    (now : Int) (cache : Option (CacheEntry (List SkillCatalogEntry)))
    (opts : CacheOptions) :
    (getCatalog .err now cache opts).1 = (cache.map (·.data)).getD [] ∧
    (getCatalog .err now cache opts).2.1 = cache := by
  cases hfr : opts.forceRefresh <;> rcases cache with _ | c
  · simp [getCatalog, hfr]
  · cases hage : ageLt (now - c.cachedAt) (ttlOf opts CACHE_TTL_CATALOG) <;>
      simp [getCatalog, hfr, hage]
  · simp [getCatalog, hfr]
  · simp [getCatalog, hfr]

-- ============================================================
-- C6: search error handling
-- ============================================================

/-- C6 (counterexample): on a transport failure with an empty search
cache, `search` returns the empty result list to its caller — the
internal `RemoteError` is caught inside `search` itself (the embedded
function has no error outcome at all), so no error is raised to the
caller. -/
theorem search_err_empty_cache_returns_empty :
    search .err 0 [] "q" 10 {} = ([], [], true) := by
  decide

/-- C6 (amended): `search` attempts exactly one remote call per
invocation, precisely when the per-(query,limit) cache misses; on a
non-2xx or transport failure it does not raise: it logs and returns the
stale cached entry for that key, or the empty list when none exists,
leaving the cache unchanged. -/
theorem search_one_fetch_per_miss_and_swallows
    (env : FetchOutcome (List SkillSearchResult)) (now : Int)
    (cache : List (String × CacheEntry (List SkillSearchResult)))
    (q : String) (lim : Int) (opts : CacheOptions) :
    ((search env now cache q lim opts).2.2 = false ↔
      (opts.forceRefresh = false ∧ ∃ e,
        lookupA cache (searchKey q lim) = some e ∧
        ageLt (now - e.cachedAt) (ttlOf opts CACHE_TTL_SEARCH) = true)) ∧
    (search .err now cache q lim opts).1 =
      ((lookupA cache (searchKey q lim)).map (·.data)).getD [] ∧
    (search .err now cache q lim opts).2.1 = cache := by
  refine ⟨?_, ?_, ?_⟩ <;>
    cases hfr : opts.forceRefresh <;>
    rcases hl : lookupA cache (searchKey q lim) with _ | e <;>
    cases env <;>
    simp [search, hfr, hl] <;>
    cases hage : ageLt (now - e.cachedAt) (ttlOf opts CACHE_TTL_SEARCH) <;>
    simp [hage]

-- ============================================================
-- C9: syncCatalog on a failed forced refresh
-- ============================================================

/-- C9: when the forced refresh inside `syncCatalog` fails, it still
returns `{added: 0, updated: previous count}` and the catalog cache
(data and `cachedAt`) is unchanged; a successful sync that fetched the
very same entries reports the same counts, making the two
indistinguishable from the returned counts. -/
theorem syncCatalog_failure_counts
    (now : Int) (cache : Option (CacheEntry (List SkillCatalogEntry)))
    (e : CacheEntry (List SkillCatalogEntry)) :
    syncCatalog .err now cache =
      ((0, (cache.map (fun c => (c.data.length : Int))).getD 0), cache) ∧
    syncCatalog (.ok e.data) now (some e) =
      ((0, (e.data.length : Int)), some ⟨e.data, now⟩) := by
  constructor
  · cases hfr : cache <;> simp [syncCatalog, getCatalog]
  · simp [syncCatalog, getCatalog]

-- ============================================================
-- C7: invalid slugs fail with no I/O
-- ============================================================

/-- C7: for every string violating `^[A-Za-z0-9_-]{1,100}$`, each
slug-taking operation fails from the slug validation with no network or
filesystem I/O: `getSkillDetails` propagates the error with the cache
untouched and no fetch; `install` returns `false` with untouched state
and an empty I/O trace; `loadSkill` propagates the error regardless of
any disk, lock, or time (so it read nothing); `getLoadedSkill`,
`isInstalled` and `getSkillInstructions` catch it and return their
failure values. -/
theorem invalid_slug_no_io
    (slug : String) (h : validSlug slug = false)
    (envD : DetailsFetch) (now : Int)
    (cacheD : List (String × CacheEntry SkillDetails)) (opts : CacheOptions)
    (envI : InstallEnv) (st : ServiceState) (skillsDir version : String)
    (disk : Disk) (lock : Lock) (t : Int) (loaded : LoadedMap) :
    getSkillDetails envD now cacheD slug opts = (.error (), cacheD, false) ∧
    install envI now st skillsDir slug version = (false, st, []) ∧
    loadSkill disk lock t loaded slug = .error () ∧
    getLoadedSkill loaded slug = none ∧
    isInstalled loaded slug = false ∧
    getSkillInstructions loaded slug = none := by
  have hs := sanitizeSlug_error_of_invalid slug h
  refine ⟨?_, ?_, ?_, ?_, ?_, ?_⟩ <;>
    simp [getSkillDetails, install, loadSkill, getLoadedSkill, isInstalled,
      getSkillInstructions, hs]

/-- C7 (witness): the no-I/O theorem applied to the invalid slug
`"bad slug!"` with concrete state everywhere. -/
theorem invalid_slug_no_io_witness :
    validSlug "bad slug!" = false ∧
    (getSkillDetails .err 0 [] "bad slug!" {} = (.error (), [], false) ∧
      install ⟨.err, .err, []⟩ 0 {} "skills" "bad slug!" "latest" =
        (false, {}, []) ∧
      loadSkill [] [] 0 [] "bad slug!" = .error () ∧
      getLoadedSkill [] "bad slug!" = none ∧
      isInstalled [] "bad slug!" = false ∧
      getSkillInstructions [] "bad slug!" = none) :=
  ⟨by decide,
    invalid_slug_no_io "bad slug!" (by decide) .err 0 [] {} ⟨.err, .err, []⟩
      {} "skills" "latest" [] [] 0 []⟩

-- ============================================================
-- C10: loadSkill with no manifest
-- ============================================================

/-- C10: for every valid slug whose directory is absent or has no
`SKILL.md`, `loadSkill` returns `null` and hands back the loaded-skills
map unchanged — any previously loaded entry for the slug is preserved
as-is. -/
theorem loadSkill_missing_manifest
    (disk : Disk) (lock : Lock) (now : Int) (loaded : LoadedMap)
    (slug : String) (hv : validSlug slug = true)
    (hmd : (lookupA disk slug).bind (·.skillMd) = none) :
    loadSkill disk lock now loaded slug = .ok (none, loaded) := by
  have hs := sanitizeSlug_ok_of_valid slug hv
  rcases hl : lookupA disk slug with _ | dir
  · simp [loadSkill, hs, hl]
  · rw [hl] at hmd
    have hmd2 : dir.skillMd = none := hmd
    simp [loadSkill, hs, hl, hmd2]

/-- C10 (witness): a valid slug `"ghost"` with an already-loaded entry
and no on-disk manifest: `loadSkill` yields `null` and keeps the entry. -/
theorem loadSkill_missing_manifest_witness :
    validSlug "ghost" = true ∧
    (lookupA ([("other", ⟨some "x", none, none⟩)] : Disk) "ghost").bind
      (·.skillMd) = none ∧
    loadSkill [("other", ⟨some "x", none, none⟩)] [] 7
      [("ghost", ⟨"ghost", "Ghost", "", "local", none, [], [], some 1⟩)]
      "ghost" =
      .ok (none,
        [("ghost", ⟨"ghost", "Ghost", "", "local", none, [], [], some 1⟩)]) :=
  ⟨by decide, by decide,
    loadSkill_missing_manifest [("other", ⟨some "x", none, none⟩)] [] 7
      [("ghost", ⟨"ghost", "Ghost", "", "local", none, [], [], some 1⟩)]
      "ghost" (by decide) (by decide)⟩

-- ============================================================
-- C8: idempotent reload
-- ============================================================

/-- C8: two consecutive `loadSkill` calls on the same slug over the same
on-disk content (manifest, listings, lock record) produce skills equal
in every field except the load timestamp `cachedAt`, which is each
call's own `Date.now()`. -/
theorem loadSkill_reload_idempotent
    (disk : Disk) (lock : Lock) (t1 t2 : Int) (loaded : LoadedMap)
    (slug : String) (sk1 sk2 : Skill) (m1 m2 : LoadedMap)
    (h1 : loadSkill disk lock t1 loaded slug = .ok (some sk1, m1))
    (h2 : loadSkill disk lock t2 m1 slug = .ok (some sk2, m2)) :
    sk1.slug = sk2.slug ∧ sk1.name = sk2.name ∧
    sk1.description = sk2.description ∧ sk1.version = sk2.version ∧
    sk1.content = sk2.content ∧ sk1.scripts = sk2.scripts ∧
    sk1.references = sk2.references ∧
    sk1.cachedAt = some t1 ∧ sk2.cachedAt = some t2 := by
  rcases hs : sanitizeSlug slug with u | safeSlug <;>
    simp only [loadSkill, hs] at h1 h2
  · exact absurd h1 (by simp)
  · rcases hd : lookupA disk safeSlug with _ | dir <;>
      simp only [hd] at h1 h2
    · simp at h1
    · rcases hm : dir.skillMd with _ | content <;>
        simp only [hm] at h1 h2
      · simp at h1
      · simp only [Except.ok.injEq, Prod.mk.injEq, Option.some.injEq] at h1 h2
        obtain ⟨hsk1, _⟩ := h1
        obtain ⟨hsk2, _⟩ := h2
        subst hsk1 hsk2
        simp

/-- C8 (witness): reloading the concrete skill `"foo"` at times 1 and 2
over an unchanged disk yields fields equal except `cachedAt`, which
records each call's own time. -/
theorem loadSkill_reload_idempotent_witness :
    (⟨"foo", "Foo", "bar", "1.2.3",
        some "---\nname: Foo\ndescription: bar\n---\nBody",
        ["run.sh"], [], some 1⟩ : Skill).slug =
      (⟨"foo", "Foo", "bar", "1.2.3",
        some "---\nname: Foo\ndescription: bar\n---\nBody",
        ["run.sh"], [], some 2⟩ : Skill).slug ∧
    (⟨"foo", "Foo", "bar", "1.2.3",
        some "---\nname: Foo\ndescription: bar\n---\nBody",
        ["run.sh"], [], some 1⟩ : Skill).name =
      (⟨"foo", "Foo", "bar", "1.2.3",
        some "---\nname: Foo\ndescription: bar\n---\nBody",
        ["run.sh"], [], some 2⟩ : Skill).name ∧
    (⟨"foo", "Foo", "bar", "1.2.3",
        some "---\nname: Foo\ndescription: bar\n---\nBody",
        ["run.sh"], [], some 1⟩ : Skill).description =
      (⟨"foo", "Foo", "bar", "1.2.3",
        some "---\nname: Foo\ndescription: bar\n---\nBody",
        ["run.sh"], [], some 2⟩ : Skill).description ∧
    (⟨"foo", "Foo", "bar", "1.2.3",
        some "---\nname: Foo\ndescription: bar\n---\nBody",
        ["run.sh"], [], some 1⟩ : Skill).version =
      (⟨"foo", "Foo", "bar", "1.2.3",
        some "---\nname: Foo\ndescription: bar\n---\nBody",
        ["run.sh"], [], some 2⟩ : Skill).version ∧
    (⟨"foo", "Foo", "bar", "1.2.3",
        some "---\nname: Foo\ndescription: bar\n---\nBody",
        ["run.sh"], [], some 1⟩ : Skill).content =
      (⟨"foo", "Foo", "bar", "1.2.3",
        some "---\nname: Foo\ndescription: bar\n---\nBody",
        ["run.sh"], [], some 2⟩ : Skill).content ∧
    (⟨"foo", "Foo", "bar", "1.2.3",
        some "---\nname: Foo\ndescription: bar\n---\nBody",
        ["run.sh"], [], some 1⟩ : Skill).scripts =
      (⟨"foo", "Foo", "bar", "1.2.3",
        some "---\nname: Foo\ndescription: bar\n---\nBody",
        ["run.sh"], [], some 2⟩ : Skill).scripts ∧
    (⟨"foo", "Foo", "bar", "1.2.3",
        some "---\nname: Foo\ndescription: bar\n---\nBody",
        ["run.sh"], [], some 1⟩ : Skill).references =
      (⟨"foo", "Foo", "bar", "1.2.3",
        some "---\nname: Foo\ndescription: bar\n---\nBody",
        ["run.sh"], [], some 2⟩ : Skill).references ∧
    (⟨"foo", "Foo", "bar", "1.2.3",
        some "---\nname: Foo\ndescription: bar\n---\nBody",
        ["run.sh"], [], some 1⟩ : Skill).cachedAt = some 1 ∧
    (⟨"foo", "Foo", "bar", "1.2.3",
        some "---\nname: Foo\ndescription: bar\n---\nBody",
        ["run.sh"], [], some 2⟩ : Skill).cachedAt = some 2 :=
  loadSkill_reload_idempotent
    [("foo", ⟨some "---\nname: Foo\ndescription: bar\n---\nBody",
      some ["run.sh", ".hidden"], none⟩)]
    [("foo", "1.2.3")] 1 2 [] "foo"
    ⟨"foo", "Foo", "bar", "1.2.3",
      some "---\nname: Foo\ndescription: bar\n---\nBody",
      ["run.sh"], [], some 1⟩
    ⟨"foo", "Foo", "bar", "1.2.3",
      some "---\nname: Foo\ndescription: bar\n---\nBody",
      ["run.sh"], [], some 2⟩
    [("foo", ⟨"foo", "Foo", "bar", "1.2.3",
      some "---\nname: Foo\ndescription: bar\n---\nBody",
      ["run.sh"], [], some 1⟩)]
    [("foo", ⟨"foo", "Foo", "bar", "1.2.3",
      some "---\nname: Foo\ndescription: bar\n---\nBody",
      ["run.sh"], [], some 2⟩)]
    (by rfl) (by rfl)

-- ============================================================
-- C4: guidance resolution scenario B
-- ============================================================

/-- C4: with no installed skills, when the remote search for the
normalized query delivers a non-empty list whose top result scores 0.9
(above the 0.25 confidence floor) for a slug that is not yet loaded, the
handler selects the remote candidate, passes exactly that one slug to
`install`, and on install success reports `source = "installed"` with
the freshly loaded skill's instructions. -/
theorem guidance_scenario_b
    (terms : String) (b : SkillSearchResult) (rest : List SkillSearchResult)
    (loadedAfter : LoadedMap) (hscore : b.score = 9 / 10) :
    (handlerAfterSearch terms [] (b :: rest) true loadedAfter).2 = [b.slug] ∧
    outcomeSource
      (handlerAfterSearch terms [] (b :: rest) true loadedAfter).1 =
      some .installedS ∧
    outcomeInstructions
      (handlerAfterSearch terms [] (b :: rest) true loadedAfter).1 =
      (getLoadedSkill loadedAfter b.slug).bind
        (fun sk => getSkillInstructions loadedAfter sk.slug) := by
  have hfloor : ¬(b.score < 1 / 4) := by
    rw [hscore]
    norm_num
  have hnil := getLoadedSkill_nil b.slug
  rcases hsk : getLoadedSkill loadedAfter b.slug with _ | sk <;>
    simp [handlerAfterSearch, findBestLocalMatch, hfloor, hnil, hsk,
      outcomeSource, outcomeInstructions] <;>
    rw [if_neg (by rw [hscore]; norm_num)] <;>
    simp [outcomeSource, outcomeInstructions]

/-- C4 (witness): the scenario with the concrete `agent-browser` result
at score 0.9 and an install that loads the skill with instruction body
`Use the browser tool.`. -/
theorem guidance_scenario_b_witness :
    (⟨9 / 10, "agent-browser", "Agent Browser", "Automates browsers",
        "1.0.0", 0⟩ : SkillSearchResult).score = 9 / 10 ∧
    outcomeSource
      (handlerAfterSearch "browser automation" []
        [⟨9 / 10, "agent-browser", "Agent Browser", "Automates browsers",
          "1.0.0", 0⟩] true
        [("agent-browser",
          ⟨"agent-browser", "Agent Browser", "Automates browsers", "1.0.0",
            some "---\nname: Agent Browser\n---\nUse the browser tool.",
            [], [], some 3⟩)]).1 = some .installedS :=
  ⟨rfl,
    (guidance_scenario_b "browser automation"
      ⟨9 / 10, "agent-browser", "Agent Browser", "Automates browsers",
        "1.0.0", 0⟩ []
      [("agent-browser",
        ⟨"agent-browser", "Agent Browser", "Automates browsers", "1.0.0",
          some "---\nname: Agent Browser\n---\nUse the browser tool.",
          [], [], some 3⟩)] rfl).2.1⟩

end CSkills
